import Mathlib

/-!
Verification of the waste-report lifecycle and work-assignment core of the
Smart-Waste-Management system.  The definitions below are a shallow embedding
of the report/facility route handlers and of the Mongoose model methods:

* `Status`, `Role`, `Level` mirror the schema enumerations;
* `addRewardPoints` mirrors `userSchema.methods.addRewardPoints`;
* `claim`, `updateStatus`, `adminAssign`, `createReport`, `getReports`,
  `nearbyReports`, `getFacilities` mirror the corresponding Express route
  handlers;
* the MongoDB primitives used by those handlers (`findById`-style lookup,
  whole-collection update, and the geospatial `near` query) are modelled by
  `findById`, `updateById` and `mongoNear` over an explicit list of documents.

`claimRace` additionally models the interleaving of two concurrent claim
handlers in which both `findById` reads complete before either `save` write,
which the single-threaded event loop of the runtime permits because both
operations are awaited.
-/

namespace SmartWaste

/-- Report lifecycle states, from the `wasteReportSchema.status` enum. -/
inductive Status
  | reported
  | acknowledged
  | assigned
  | in_progress
  | completed
  | verified
  | rejected
  deriving DecidableEq

/-- User roles, from the `userSchema.role` enum. -/
inductive Role
  | citizen
  | waste_worker
  | admin
  | green_champion
  deriving DecidableEq

/-- Reward levels, from the `userSchema.rewards.level` enum. -/
inductive Level
  | bronze
  | silver
  | gold
  | platinum
  deriving DecidableEq

abbrev UserId := Nat

/-- A geographic point as a (longitude, latitude) pair. -/
abbrev Point := ℚ × ℚ

/-- The `rewards` subdocument of a user. -/
structure Rewards where
  points : Int
  totalEarned : Int
  level : Level
  deriving DecidableEq

/-- The projection of a user document that the core touches. -/
structure User where
  id : UserId
  name : String
  role : Role
  rewards : Rewards
  deriving DecidableEq

/-- The `actualCollection` subdocument of a waste report. -/
structure ActualCollection where
  date : Nat
  worker : UserId
  notes : String
  deriving DecidableEq

/-- The projection of a `WasteReport` document that the core touches. -/
structure Report where
  id : Nat
  reporter : UserId
  location : Point
  wasteType : String
  severity : String
  status : Status
  assignedWorker : Option UserId
  actualCollection : Option ActualCollection
  createdAt : Nat
  deriving DecidableEq

/-- The two collections the route handlers read and write. -/
structure SystemState where
  reports : List Report
  users : List User
  deriving DecidableEq

/-- `WasteReport.findById`: first document with the given id. -/
def findById (reports : List Report) (reportId : Nat) : Option Report :=
  reports.find? (fun r => r.id == reportId)

/-- Saving a modified document: replace every document carrying the id. -/
def updateById (reports : List Report) (reportId : Nat) (f : Report → Report) :
    List Report :=
  reports.map (fun r => if r.id = reportId then f r else r)

/-- `userSchema.methods.addRewardPoints`: add `points` to both the spendable
balance and the lifetime total, then raise the level when the new total
crosses 1000 / 5000 / 10000; below 1000 the level is left as it was. -/
def addRewardPoints (r : Rewards) (p : Int) : Rewards :=
  let points := r.points + p
  let totalEarned := r.totalEarned + p
  let level :=
    if totalEarned ≥ 10000 then Level.platinum
    else if totalEarned ≥ 5000 then Level.gold
    else if totalEarned ≥ 1000 then Level.silver
    else r.level
  { points := points, totalEarned := totalEarned, level := level }

/-- The level determined by a lifetime total at the cutoffs used in
`addRewardPoints` (1000, 5000, 10000). -/
def tierOf (total : Int) : Level :=
  if total ≥ 10000 then Level.platinum
  else if total ≥ 5000 then Level.gold
  else if total ≥ 1000 then Level.silver
  else Level.bronze

/-- Numeric rank of a level: bronze < silver < gold < platinum. -/
def tierRank : Level → Nat
  | Level.bronze => 0
  | Level.silver => 1
  | Level.gold => 2
  | Level.platinum => 3

/-- Insertion step of a stable insertion sort keyed by a boolean total
preorder; models the datastore returning documents in query order. -/
def insertBy (le : α → α → Bool) (a : α) : List α → List α
  | [] => [a]
  | b :: bs => if le a b then a :: b :: bs else b :: insertBy le a bs

/-- Stable insertion sort by a boolean total preorder. -/
def sortBy (le : α → α → Bool) : List α → List α
  | [] => []
  | a :: as => insertBy le a (sortBy le as)

/-- MongoDB `near` with `maxDistance`: the documents within the given
distance of the centre, ordered from nearest to farthest.  `dist` stands for
the store's spherical (great-circle) distance function. -/
def mongoNear (dist : Point → Point → ℚ) (center : Point) (maxDistance : ℚ)
    (loc : α → Point) (docs : List α) : List α :=
  sortBy (fun a b => decide (dist center (loc a) ≤ dist center (loc b)))
    (docs.filter (fun d => decide (dist center (loc d) ≤ maxDistance)))

theorem mem_insertBy (le : α → α → Bool) (a : α) :
    ∀ (l : List α) (x : α), x ∈ insertBy le a l ↔ x = a ∨ x ∈ l := by
  intro l
  induction l with
  | nil => intro x; simp [insertBy]
  | cons b bs ih =>
      intro x
      by_cases h : le a b = true
      · simp [insertBy, h]
      · simp only [insertBy, h, if_neg, Bool.not_eq_true] at *
        simp [List.mem_cons, ih x]
        tauto

theorem mem_sortBy (le : α → α → Bool) :
    ∀ (l : List α) (x : α), x ∈ sortBy le l ↔ x ∈ l := by
  intro l
  induction l with
  | nil => intro x; simp [sortBy]
  | cons a as ih =>
      intro x
      simp [sortBy, mem_insertBy, ih x]

theorem insertBy_pairwise (le : α → α → Bool)
    (htot : ∀ a b, le a b = true ∨ le b a = true)
    (htrans : ∀ a b c, le a b = true → le b c = true → le a c = true)
    (a : α) :
    ∀ l : List α, l.Pairwise (fun x y => le x y = true) →
      (insertBy le a l).Pairwise (fun x y => le x y = true) := by
  intro l
  induction l with
  | nil => intro _; simp [insertBy]
  | cons b bs ih =>
      intro hl
      rcases List.pairwise_cons.mp hl with ⟨hb, hbs⟩
      by_cases h : le a b = true
      · simp only [insertBy, h, if_true]
        refine List.pairwise_cons.mpr ⟨?_, hl⟩
        intro x hx
        rcases List.mem_cons.mp hx with rfl | hx
        · exact h
        · exact htrans a b x h (hb x hx)
      · have hba : le b a = true := (htot a b).resolve_left h
        simp only [insertBy, h, if_false, Bool.false_eq_true]
        refine List.pairwise_cons.mpr ⟨?_, ih hbs⟩
        intro x hx
        rcases (mem_insertBy le a bs x).mp hx with rfl | hx
        · exact hba
        · exact hb x hx

theorem sortBy_pairwise (le : α → α → Bool)
    (htot : ∀ a b, le a b = true ∨ le b a = true)
    (htrans : ∀ a b c, le a b = true → le b c = true → le a c = true) :
    ∀ l : List α, (sortBy le l).Pairwise (fun x y => le x y = true) := by
  intro l
  induction l with
  | nil => simp [sortBy]
  | cons a as ih => exact insertBy_pairwise le htot htrans a _ ih

theorem mem_mongoNear (dist : Point → Point → ℚ) (center : Point)
    (maxDistance : ℚ) (loc : α → Point) (docs : List α) (x : α)
    (hx : x ∈ mongoNear dist center maxDistance loc docs) :
    x ∈ docs ∧ dist center (loc x) ≤ maxDistance := by
  have hx' := (mem_sortBy _ _ x).mp hx
  have := List.mem_filter.mp hx'
  exact ⟨this.1, of_decide_eq_true this.2⟩

theorem mongoNear_sorted (dist : Point → Point → ℚ) (center : Point)
    (maxDistance : ℚ) (loc : α → Point) (docs : List α) :
    (mongoNear dist center maxDistance loc docs).Pairwise
      (fun a b => dist center (loc a) ≤ dist center (loc b)) := by
  have h := sortBy_pairwise
    (fun a b => decide (dist center (loc a) ≤ dist center (loc b)))
    (fun a b => by
      by_cases hab : dist center (loc a) ≤ dist center (loc b)
      · exact Or.inl (decide_eq_true hab)
      · exact Or.inr (decide_eq_true (le_of_lt (lt_of_not_le hab))))
    (fun a b c hab hbc =>
      decide_eq_true (le_trans (of_decide_eq_true hab) (of_decide_eq_true hbc)))
    (docs.filter (fun d => decide (dist center (loc d) ≤ maxDistance)))
  exact h.imp (fun hab => of_decide_eq_true hab)

/-- Outcomes of the claim route `PUT /reports/:id/claim`.  The message of the
`alreadyAssignedTo` variant is the body text of its 400 response. -/
inductive ClaimResult
  | notFound
  | alreadyAssignedTo (other : UserId) (message : String)
  | alreadyOwnedBySelf
  | claimed
  deriving DecidableEq

/-- The runtime's string-or-else: the fallback is used when the first string
is empty or the lookup failed. -/
def jsOrElse (s fallback : String) : String :=
  if s = "" then fallback else s

/-- The 400 message of a claim conflict: it names the current assignee when
the user lookup finds them, from the claim route. -/
def claimConflictMessage (users : List User) (other : UserId) : String :=
  "This report is already assigned to " ++
    jsOrElse
      (match users.find? (fun u => u.id == other) with
        | some u => u.name
        | none => "")
      "another worker"

/-- The checks the claim route performs on its `findById` snapshot. -/
def claimDecide (users : List User) (snapshot : Option Report)
    (workerId : UserId) : ClaimResult :=
  match snapshot with
  | none => ClaimResult.notFound
  | some report =>
    match report.assignedWorker with
    | some other =>
        if other ≠ workerId then
          ClaimResult.alreadyAssignedTo other (claimConflictMessage users other)
        else ClaimResult.alreadyOwnedBySelf
    | none => ClaimResult.claimed

/-- The write the claim route performs on success: set `assignedWorker` to
the caller and `status` to `assigned`. -/
def claimCommit (reports : List Report) (reportId : Nat) (workerId : UserId) :
    List Report :=
  updateById reports reportId
    (fun r => { r with assignedWorker := some workerId,
                       status := Status.assigned })

/-- `PUT /reports/:id/claim`, run without interleaving: read the report,
decide, and commit the write when the decision is `claimed`. -/
def claim (state : SystemState) (reportId : Nat) (workerId : UserId) :
    ClaimResult × SystemState :=
  let result := claimDecide state.users (findById state.reports reportId) workerId
  match result with
  | ClaimResult.claimed =>
      (result, { state with reports := claimCommit state.reports reportId workerId })
  | _ => (result, state)

/-- Two concurrent executions of the claim route on the same report, in the
interleaving where both `findById` reads complete before either `save`
write.  Each handler decides from its own snapshot and the writes land in
order. -/
def claimRace (state : SystemState) (reportId : Nat) (w1 w2 : UserId) :
    ClaimResult × ClaimResult × SystemState :=
  let snap1 := findById state.reports reportId
  let snap2 := findById state.reports reportId
  let res1 := claimDecide state.users snap1 w1
  let reports1 :=
    match res1 with
    | ClaimResult.claimed => claimCommit state.reports reportId w1
    | _ => state.reports
  let res2 := claimDecide state.users snap2 w2
  let reports2 :=
    match res2 with
    | ClaimResult.claimed => claimCommit reports1 reportId w2
    | _ => reports1
  (res1, res2, { state with reports := reports2 })

/-- Outcomes of the status route `PUT /reports/:id/status`. -/
inductive StatusResult
  | invalidStatus
  | notFound
  | forbidden
  | applied
  deriving DecidableEq

/-- The `validStatuses` array of the status route. -/
def validStatuses : List Status :=
  [Status.acknowledged, Status.assigned, Status.in_progress,
   Status.completed, Status.verified, Status.rejected]

/-- `PUT /reports/:id/status`: reject a target outside `validStatuses`;
look the report up; a worker may only update a report assigned to them;
then set the status, and on `completed` also populate `actualCollection`
with the current date, the acting user and the supplied notes. -/
def updateStatus (state : SystemState) (actor : User) (reportId : Nat)
    (target : Status) (notes : String) (now : Nat) :
    StatusResult × SystemState :=
  if target ∉ validStatuses then (StatusResult.invalidStatus, state)
  else
    match findById state.reports reportId with
    | none => (StatusResult.notFound, state)
    | some report =>
        if actor.role = Role.waste_worker ∧
            report.assignedWorker ≠ some actor.id then
          (StatusResult.forbidden, state)
        else
          (StatusResult.applied,
            { state with
                reports := updateById state.reports reportId (fun r =>
                  let r1 := { r with status := target }
                  if target = Status.completed then
                    { r1 with actualCollection := some ⟨now, actor.id, notes⟩ }
                  else r1) })

/-- Outcomes of the admin assignment route `PUT /reports/:id/assign`. -/
inductive AssignResult
  | notFound
  | invalidWorker
  | assigned
  deriving DecidableEq

/-- `PUT /reports/:id/assign`: the admin sets `assignedWorker` to the given
worker (who must exist and hold the worker role) and `status` to
`assigned`. -/
def adminAssign (state : SystemState) (reportId : Nat) (workerId : UserId) :
    AssignResult × SystemState :=
  match findById state.reports reportId with
  | none => (AssignResult.notFound, state)
  | some _ =>
      match state.users.find? (fun u => u.id == workerId) with
      | none => (AssignResult.invalidWorker, state)
      | some worker =>
          if worker.role ≠ Role.waste_worker then (AssignResult.invalidWorker, state)
          else
            (AssignResult.assigned,
              { state with
                  reports := updateById state.reports reportId (fun r =>
                    { r with assignedWorker := some workerId,
                             status := Status.assigned }) })

/-- `POST /report`: insert a new report with status `reported` and no
assigned worker, then award the submitting user 10 reward points. -/
def createReport (state : SystemState) (reporter : User) (newId : Nat)
    (location : Point) (wasteType severity : String) (createdAt : Nat) :
    SystemState :=
  { reports := state.reports ++
      [{ id := newId, reporter := reporter.id, location := location,
         wasteType := wasteType, severity := severity,
         status := Status.reported, assignedWorker := none,
         actualCollection := none, createdAt := createdAt }],
    users := state.users.map (fun u =>
      if u.id = reporter.id then { u with rewards := addRewardPoints u.rewards 10 }
      else u) }

/-- String form of a status, as stored in the document and compared against
the `status` query parameter. -/
def statusToString : Status → String
  | Status.reported => "reported"
  | Status.acknowledged => "acknowledged"
  | Status.assigned => "assigned"
  | Status.in_progress => "in_progress"
  | Status.completed => "completed"
  | Status.verified => "verified"
  | Status.rejected => "rejected"

/-- The role-based part of the `GET /reports` filter: a worker sees their
own reports when `viewType` is `my` and everything otherwise; a citizen or
green champion always sees only their own reports; an admin sees all. -/
def reportsRoleFilter (user : User) (viewType : Option String) (r : Report) :
    Bool :=
  if user.role = Role.waste_worker then
    if viewType = some "my" then r.assignedWorker == some user.id else true
  else if user.role = Role.citizen ∨ user.role = Role.green_champion then
    r.reporter == user.id
  else true

/-- An optional query parameter as an equality filter; an absent or empty
parameter (falsy in the runtime) filters nothing. -/
def paramFilter (param : Option String) (fieldValue : String) : Bool :=
  match param with
  | some s => if s = "" then true else fieldValue == s
  | none => true

/-- `GET /reports`: filter by role/viewType and by the optional status,
wasteType and severity parameters, order by creation time newest first, and
paginate. -/
def getReports (state : SystemState) (user : User)
    (viewType status wasteType severity : Option String)
    (page limit : Nat) : List Report :=
  let matching := state.reports.filter (fun r =>
    reportsRoleFilter user viewType r &&
    paramFilter status (statusToString r.status) &&
    paramFilter wasteType r.wasteType &&
    paramFilter severity r.severity)
  let sorted := sortBy (fun a b => decide (b.createdAt ≤ a.createdAt)) matching
  (sorted.drop ((page - 1) * limit)).take limit

/-- Query parameters of `GET /reports/nearby`. -/
structure NearbyParams where
  longitude : Option ℚ
  latitude : Option ℚ
  radius : ℚ
  includeAssigned : String
  deriving DecidableEq

/-- `GET /reports/nearby`: without both coordinates the route answers 400
with the given message; otherwise it runs the geospatial query (restricted
to unassigned reports and the caller's own, unless `includeAssigned` is not
the string `false`) and returns at most 100 documents. -/
def nearbyReports (dist : Point → Point → ℚ) (state : SystemState)
    (caller : UserId) (p : NearbyParams) : Except String (List Report) :=
  match p.longitude, p.latitude with
  | some lng, some lat =>
      let base :=
        if p.includeAssigned = "false" then
          state.reports.filter (fun r =>
            decide (r.assignedWorker = none ∨ r.assignedWorker = some caller))
        else state.reports
      Except.ok
        ((mongoNear dist (lng, lat) p.radius (fun r => r.location) base).take 100)
  | _, _ => Except.error "Longitude and latitude are required"

/-- The projection of a facility document that the discovery query touches. -/
structure Facility where
  id : Nat
  isActive : Bool
  ftype : String
  acceptedWasteTypes : List String
  location : Point
  deriving DecidableEq

/-- Query parameters of the facility listing route. -/
structure FacilityParams where
  ftype : Option String
  wasteType : Option String
  longitude : Option ℚ
  latitude : Option ℚ
  radius : ℚ
  limit : Nat
  deriving DecidableEq

/-- The non-geospatial part of the facility query: active facilities,
optionally filtered by type and accepted waste type; an absent, empty or
`all` parameter filters nothing. -/
def facilityQuery (p : FacilityParams) (f : Facility) : Bool :=
  f.isActive &&
  (match p.ftype with
    | some t => if t = "" ∨ t = "all" then true else f.ftype == t
    | none => true) &&
  (match p.wasteType with
    | some w => if w = "" ∨ w = "all" then true else f.acceptedWasteTypes.contains w
    | none => true)

/-- `GET /` of the facilities router: with both coordinates, the geospatial
query ordered by distance; without them, the plain filtered listing; both
capped at `limit`. -/
def getFacilities (dist : Point → Point → ℚ) (facilities : List Facility)
    (p : FacilityParams) : List Facility :=
  let base := facilities.filter (facilityQuery p)
  match p.longitude, p.latitude with
  | some lng, some lat =>
      (mongoNear dist (lng, lat) p.radius (fun f => f.location) base).take p.limit
  | _, _ => base.take p.limit

/-- The transition table of the specification's status state machine
(§4.2).  Modelled from the spec for comparison with `updateStatus`: the code
under verification has no such table. -/
def specTransitionTable : Status → Status → Bool
  | Status.reported, Status.acknowledged => true
  | Status.reported, Status.assigned => true
  | Status.reported, Status.rejected => true
  | Status.acknowledged, Status.assigned => true
  | Status.acknowledged, Status.rejected => true
  | Status.assigned, Status.in_progress => true
  | Status.assigned, Status.rejected => true
  | Status.in_progress, Status.completed => true
  | Status.in_progress, Status.rejected => true
  | Status.completed, Status.verified => true
  | Status.completed, Status.rejected => true
  | _, _ => false

/-- The assignment invariant claimed for every report: no assigned worker
exactly in the `reported` and `acknowledged` states. -/
def workerInvariant (r : Report) : Prop :=
  r.assignedWorker = none ↔
    (r.status = Status.reported ∨ r.status = Status.acknowledged)

instance (r : Report) : Decidable (workerInvariant r) := by
  unfold workerInvariant
  infer_instance

theorem findById_updateById (reports : List Report) (reportId : Nat)
    (f : Report → Report) (hf : ∀ r, (f r).id = r.id) :
    findById (updateById reports reportId f) reportId =
      (findById reports reportId).map f := by
  induction reports with
  | nil => rfl
  | cons a t ih =>
      by_cases hid : a.id = reportId
      · have hfa : ((f a).id == reportId) = true := by
          simp [hf a, hid]
        simp [findById, updateById, List.find?_cons, hid, hfa]
      · have hna : (a.id == reportId) = false := by
          simp [hid]
        simp only [findById, updateById, List.map_cons, if_neg hid,
          List.find?_cons, hna] at *
        exact ih

/- Concrete fixtures used by the witnesses and counterexamples below. -/

def bronzeRewards : Rewards :=
  { points := 0, totalEarned := 0, level := Level.bronze }

def reporterUser : User :=
  { id := 5, name := "Ravi", role := Role.citizen, rewards := bronzeRewards }

def workerOne : User :=
  { id := 1, name := "Asha", role := Role.waste_worker, rewards := bronzeRewards }

def workerTwo : User :=
  { id := 2, name := "Kumar", role := Role.waste_worker, rewards := bronzeRewards }

def adminUser : User :=
  { id := 9, name := "Nila", role := Role.admin, rewards := bronzeRewards }

/-- An unclaimed report, as created by the submission route. -/
def freshReport : Report :=
  { id := 0, reporter := 5, location := (80, 13), wasteType := "plastic",
    severity := "medium", status := Status.reported, assignedWorker := none,
    actualCollection := none, createdAt := 100 }

def baseState : SystemState :=
  { reports := [freshReport],
    users := [reporterUser, workerOne, workerTwo, adminUser] }

/-- C1: the claim route is a read-then-write, not an atomic conditional
update.  In the interleaving where both handlers' `findById` reads complete
before either `save` (admissible, since both are awaited I/O), two workers
racing on the same unclaimed report BOTH receive `Claimed`, contradicting
the exactly-one-winner guarantee; the second write silently overwrites the
first and the final assignee is the later writer. -/
theorem claimRace_both_claimed :
    (claimRace baseState 0 1 2).1 = ClaimResult.claimed ∧
    (claimRace baseState 0 1 2).2.1 = ClaimResult.claimed ∧
    findById (claimRace baseState 0 1 2).2.2.reports 0 =
      some { freshReport with assignedWorker := some 2,
                              status := Status.assigned } := by
  refine ⟨by decide, by decide, by decide⟩

/-- C2: claiming an existing report whose `assignedWorker` is absent
succeeds: the call returns the success variant and afterwards the report's
`assignedWorker` is the caller and its status is `assigned`. -/
theorem claim_unassigned_claimed (state : SystemState) (reportId : Nat)
    (workerId : UserId) (r : Report)
    (hfind : findById state.reports reportId = some r)
    (hun : r.assignedWorker = none) :
    (claim state reportId workerId).1 = ClaimResult.claimed ∧
    findById (claim state reportId workerId).2.reports reportId =
      some { r with assignedWorker := some workerId,
                    status := Status.assigned } := by
  have hdec : claimDecide state.users (findById state.reports reportId) workerId
      = ClaimResult.claimed := by
    rw [hfind]
    simp [claimDecide, hun]
  have hclaim : claim state reportId workerId =
      (ClaimResult.claimed,
        { state with reports := claimCommit state.reports reportId workerId }) := by
    simp only [claim, hdec]
  refine ⟨by rw [hclaim], ?_⟩
  rw [hclaim]
  show findById (claimCommit state.reports reportId workerId) reportId = _
  unfold claimCommit
  rw [findById_updateById state.reports reportId
      (fun r => { r with assignedWorker := some workerId,
                         status := Status.assigned })
      (fun _ => rfl), hfind]
  rfl

/-- Witness for C2 at a concrete state: worker 1 claims the unclaimed
report 0. -/
theorem claim_unassigned_claimed_witness :
    (claim baseState 0 1).1 = ClaimResult.claimed ∧
    findById (claim baseState 0 1).2.reports 0 =
      some { freshReport with assignedWorker := some 1,
                              status := Status.assigned } :=
  claim_unassigned_claimed baseState 0 1 freshReport (by decide) (by decide)

/-- C3 counterexample: the status route never consults the current status.
It applies the `reported → verified` jump, which is not a transition of the
spec's table, instead of rejecting it. -/
theorem transition_table_not_enforced :
    specTransitionTable Status.reported Status.verified = false ∧
    freshReport.status = Status.reported ∧
    (updateStatus baseState adminUser 0 Status.verified "" 7).1 =
      StatusResult.applied := by
  refine ⟨rfl, rfl, by decide⟩

/-- C3 (amended): the status route rejects exactly the target statuses
outside its `validStatuses` list (and then leaves the state unchanged); for
a target in the list the request is never rejected as an invalid status,
whatever the current status of the report is. -/
theorem updateStatus_guard (state : SystemState) (actor : User)
    (reportId : Nat) (target : Status) (notes : String) (now : Nat) :
    ((updateStatus state actor reportId target notes now).1 =
        StatusResult.invalidStatus ↔ target ∉ validStatuses) ∧
    (target ∉ validStatuses →
      updateStatus state actor reportId target notes now =
        (StatusResult.invalidStatus, state)) := by
  by_cases hmem : target ∈ validStatuses
  · have h1 : (updateStatus state actor reportId target notes now).1 ≠
        StatusResult.invalidStatus := by
      simp only [updateStatus, if_neg (not_not_intro hmem)]
      cases hf : findById state.reports reportId with
      | none => simp
      | some rep =>
          by_cases hg : actor.role = Role.waste_worker ∧
              rep.assignedWorker ≠ some actor.id
          · simp [hg]
          · simp [hg]
    exact ⟨iff_of_false h1 (not_not_intro hmem), fun hc => absurd hmem hc⟩
  · have heq : updateStatus state actor reportId target notes now =
        (StatusResult.invalidStatus, state) := by
      simp only [updateStatus, if_pos hmem]
    exact ⟨iff_of_true (by rw [heq]) hmem, fun _ => heq⟩

/-- Witness for C3's amended guard: the one status outside `validStatuses`
(`reported`) is rejected and the state is untouched. -/
theorem updateStatus_guard_witness :
    updateStatus baseState adminUser 0 Status.reported "x" 3 =
      (StatusResult.invalidStatus, baseState) :=
  (updateStatus_guard baseState adminUser 0 Status.reported "x" 3).2 (by decide)

/-- C4 counterexample: starting from a state whose sole report satisfies the
assignment invariant, an admin status update to `in_progress` on the still
unassigned report is applied and leaves a report that is `in_progress` with
no `assignedWorker`, breaking the claimed invariant. -/
theorem statusRoute_breaks_workerInvariant :
    workerInvariant freshReport ∧
    (updateStatus baseState adminUser 0 Status.in_progress "" 7).1 =
      StatusResult.applied ∧
    (updateStatus baseState adminUser 0 Status.in_progress "" 7).2.reports =
      [{ freshReport with status := Status.in_progress }] ∧
    ¬ workerInvariant { freshReport with status := Status.in_progress } := by
  refine ⟨by decide, by decide, by decide, by decide⟩

theorem workerInvariant_assignWrite (reports : List Report) (reportId : Nat)
    (workerId : UserId) (h : ∀ r ∈ reports, workerInvariant r) :
    ∀ r ∈ updateById reports reportId
        (fun r => { r with assignedWorker := some workerId,
                           status := Status.assigned }),
      workerInvariant r := by
  intro r hr
  rcases List.mem_map.mp hr with ⟨s, hs, rfl⟩
  by_cases hid : s.id = reportId
  · simp [hid, workerInvariant]
  · simpa [hid] using h s hs

theorem workerInvariant_claimCommit (reports : List Report) (reportId : Nat)
    (workerId : UserId) (h : ∀ r ∈ reports, workerInvariant r) :
    ∀ r ∈ claimCommit reports reportId workerId, workerInvariant r :=
  workerInvariant_assignWrite reports reportId workerId h

/-- C4 (amended): the assignment invariant — `assignedWorker` absent exactly
in the `reported`/`acknowledged` states — is preserved by report creation,
by claiming and by admin assignment; the status route, which writes any
valid target status without touching `assignedWorker`, does not preserve
it. -/
theorem workerInvariant_preserved (state : SystemState)
    (h : ∀ r ∈ state.reports, workerInvariant r)
    (reporter : User) (newId : Nat) (location : Point)
    (wasteType severity : String) (createdAt : Nat)
    (reportId : Nat) (workerId : UserId) :
    (∀ r ∈ (createReport state reporter newId location wasteType severity
        createdAt).reports, workerInvariant r) ∧
    (∀ r ∈ (claim state reportId workerId).2.reports, workerInvariant r) ∧
    (∀ r ∈ (adminAssign state reportId workerId).2.reports, workerInvariant r) := by
  refine ⟨?_, ?_, ?_⟩
  · intro r hr
    rcases List.mem_append.mp hr with hold | hnew
    · exact h r hold
    · rcases List.mem_singleton.mp hnew with rfl
      simp [workerInvariant]
  · simp only [claim]
    cases hdec : claimDecide state.users (findById state.reports reportId)
        workerId with
    | claimed => exact workerInvariant_claimCommit _ _ _ h
    | notFound => exact h
    | alreadyAssignedTo o m => exact h
    | alreadyOwnedBySelf => exact h
  · simp only [adminAssign]
    cases hfind : findById state.reports reportId with
    | none => exact h
    | some rep =>
        cases huser : state.users.find? (fun u => u.id == workerId) with
        | none => exact h
        | some worker =>
            by_cases hrole : worker.role ≠ Role.waste_worker
            · simp only [if_pos hrole]
              exact h
            · simp only [if_neg hrole]
              exact workerInvariant_assignWrite _ _ _ h

/-- Witness for C4's amended invariant preservation at a concrete state. -/
theorem workerInvariant_preserved_witness :
    (∀ r ∈ (createReport baseState reporterUser 1 (77, 12) "glass" "low"
        200).reports, workerInvariant r) ∧
    (∀ r ∈ (claim baseState 0 2).2.reports, workerInvariant r) ∧
    (∀ r ∈ (adminAssign baseState 0 2).2.reports, workerInvariant r) :=
  workerInvariant_preserved baseState (by decide) reporterUser 1 (77, 12)
    "glass" "low" 200 0 2

/-- A report mid-collection, assigned to worker 2. -/
def inProgressReport : Report :=
  { freshReport with assignedWorker := some 2, status := Status.in_progress }

def inProgressState : SystemState :=
  { baseState with reports := [inProgressReport] }

/-- C5 counterexample: worker 2 completes their report.  `actualCollection`
is populated, but the users collection — including the reporter (id 5),
whose balance is 0 — is byte-for-byte unchanged: the route applies no
Reward-Ledger credit to anyone on completion. -/
theorem completion_applies_no_reward :
    (updateStatus inProgressState workerTwo 0 Status.completed
        "collected 3 bags" 9).1 = StatusResult.applied ∧
    findById (updateStatus inProgressState workerTwo 0 Status.completed
        "collected 3 bags" 9).2.reports 0 =
      some { inProgressReport with
             status := Status.completed,
             actualCollection := some ⟨9, 2, "collected 3 bags"⟩ } ∧
    (updateStatus inProgressState workerTwo 0 Status.completed
        "collected 3 bags" 9).2.users = inProgressState.users ∧
    (updateStatus inProgressState workerTwo 0 Status.completed
        "collected 3 bags" 9).2.users.find? (fun u => u.id == 5) =
      some reporterUser ∧
    reporterUser.rewards.points = 0 := by
  refine ⟨by decide, by decide, by decide, by decide, by decide⟩

/-- C5 (amended): a permitted transition to `completed` populates
`actualCollection` with the current date, the acting user and the supplied
notes — and has no other effect: in particular the users collection, and
with it every reward balance, is unchanged (no credit is applied to the
reporter or to anyone else). -/
theorem updateStatus_completed_populates (state : SystemState) (actor : User)
    (reportId : Nat) (notes : String) (now : Nat) (r : Report)
    (hfind : findById state.reports reportId = some r)
    (hguard : ¬ (actor.role = Role.waste_worker ∧
        r.assignedWorker ≠ some actor.id)) :
    (updateStatus state actor reportId Status.completed notes now).1 =
      StatusResult.applied ∧
    findById (updateStatus state actor reportId Status.completed notes
        now).2.reports reportId =
      some { r with status := Status.completed,
                    actualCollection := some ⟨now, actor.id, notes⟩ } ∧
    (updateStatus state actor reportId Status.completed notes now).2.users =
      state.users := by
  have hmem : ¬ Status.completed ∉ validStatuses := by decide
  have hred : updateStatus state actor reportId Status.completed notes now =
      (StatusResult.applied,
        { state with reports := updateById state.reports reportId (fun s =>
            { s with status := Status.completed,
                     actualCollection := some ⟨now, actor.id, notes⟩ }) }) := by
    simp only [updateStatus, hfind, if_neg hmem, if_neg hguard, if_true]
  rw [hred]
  refine ⟨rfl, ?_, rfl⟩
  show findById (updateById state.reports reportId _) reportId = _
  rw [findById_updateById state.reports reportId
      (fun s => { s with status := Status.completed,
                         actualCollection := some ⟨now, actor.id, notes⟩ })
      (fun _ => rfl), hfind]
  rfl

/-- Witness for C5's amended statement: worker 2 completes report 0. -/
theorem updateStatus_completed_populates_witness :
    (updateStatus inProgressState workerTwo 0 Status.completed "done" 9).1 =
      StatusResult.applied ∧
    findById (updateStatus inProgressState workerTwo 0 Status.completed "done"
        9).2.reports 0 =
      some { inProgressReport with
             status := Status.completed,
             actualCollection := some ⟨9, 2, "done"⟩ } ∧
    (updateStatus inProgressState workerTwo 0 Status.completed "done" 9).2.users =
      inProgressState.users :=
  updateStatus_completed_populates inProgressState workerTwo 0 "done" 9
    inProgressReport (by decide) (by decide)

/-- A report already claimed by worker 1. -/
def claimedReport : Report :=
  { freshReport with assignedWorker := some 1, status := Status.assigned }

def claimedState : SystemState :=
  { baseState with reports := [claimedReport] }

/-- C6: a claim on a report already assigned to worker A, issued by a
different worker B, always fails with the conflict variant that carries A
and whose message names A; the state is unchanged by the failed call. -/
theorem claim_already_assigned_fails (state : SystemState) (reportId : Nat)
    (w other : UserId) (r : Report) (u : User)
    (hfind : findById state.reports reportId = some r)
    (hassigned : r.assignedWorker = some other)
    (hne : other ≠ w)
    (huser : state.users.find? (fun v => v.id == other) = some u)
    (hname : u.name ≠ "") :
    claim state reportId w =
      (ClaimResult.alreadyAssignedTo other
        ("This report is already assigned to " ++ u.name), state) := by
  have hmsg : claimConflictMessage state.users other =
      "This report is already assigned to " ++ u.name := by
    simp [claimConflictMessage, huser, jsOrElse, hname]
  have hdec : claimDecide state.users (findById state.reports reportId) w =
      ClaimResult.alreadyAssignedTo other
        ("This report is already assigned to " ++ u.name) := by
    rw [hfind]
    simp [claimDecide, hassigned, hne, hmsg]
  simp only [claim, hdec]

/-- Witness for C6: worker 2 tries to claim the report held by worker 1
(named Asha) and is refused with a message naming Asha. -/
theorem claim_already_assigned_fails_witness :
    claim claimedState 0 2 =
      (ClaimResult.alreadyAssignedTo 1
        ("This report is already assigned to " ++ workerOne.name),
       claimedState) :=
  claim_already_assigned_fails claimedState 0 2 1 claimedReport workerOne
    (by decide) (by decide) (by decide) (by decide) (by decide)

/-- A concrete distance function used to instantiate the store's abstract
distance in concrete evaluations: zero between identical coordinate pairs
and one otherwise.  (Every distance function — the great-circle one
included — assigns equal distances to entities at identical coordinates,
which is all the concrete statements below rely on.) -/
def flatDist (a b : Point) : ℚ :=
  if a = b then 0 else 1

/-- A second report filed at exactly the same spot as `freshReport`. -/
def duplicateSpotReport : Report :=
  { freshReport with id := 3, createdAt := 150 }

def twoSpotState : SystemState :=
  { baseState with reports := [freshReport, duplicateSpotReport] }

def nearParams : NearbyParams :=
  { longitude := some 80, latitude := some 13, radius := 10000,
    includeAssigned := "false" }

def facParams : FacilityParams :=
  { ftype := none, wasteType := none, longitude := some 80,
    latitude := some 13, radius := 10000, limit := 50 }

def recyclingCenter : Facility :=
  { id := 1, isActive := true, ftype := "recycling_center",
    acceptedWasteTypes := ["plastic"], location := (80, 13) }

/-- C7 counterexample: two reports filed at the same coordinates are both
returned by the nearby query at equal distance from the query point, so the
result is not ordered *strictly* ascending by distance. -/
theorem nearby_not_strictly_ascending :
    nearbyReports flatDist twoSpotState 1 nearParams =
      Except.ok [freshReport, duplicateSpotReport] ∧
    flatDist (80, 13) freshReport.location =
      flatDist (80, 13) duplicateSpotReport.location ∧
    ¬ List.Pairwise (fun a b =>
        flatDist (80, 13) a.location < flatDist (80, 13) b.location)
      [freshReport, duplicateSpotReport] := by
  refine ⟨rfl, rfl, ?_⟩
  intro h
  have := List.pairwise_cons.mp h
  have h0 := this.1 duplicateSpotReport (List.mem_singleton.mpr rfl)
  exact absurd h0 (by decide)

theorem mongoNear_take_props (dist : Point → Point → ℚ) (center : Point)
    (radius : ℚ) (loc : α → Point) (docs : List α) (n : Nat) :
    (∀ x ∈ (mongoNear dist center radius loc docs).take n,
        dist center (loc x) ≤ radius) ∧
    ((mongoNear dist center radius loc docs).take n).Pairwise
      (fun a b => dist center (loc a) ≤ dist center (loc b)) := by
  constructor
  · intro x hx
    exact (mem_mongoNear dist center radius loc docs x
      ((List.take_sublist _ _).subset hx)).2
  · exact List.Pairwise.sublist (List.take_sublist _ _)
      (mongoNear_sorted dist center radius loc docs)

/-- C7 (amended): for every nearby-reports query and every facility query
that carries a point, each returned entity lies within the given radius of
the point and the results are ordered by non-decreasing (ascending, with
ties permitted) distance from the point. -/
theorem nearby_within_radius_sorted (dist : Point → Point → ℚ)
    (state : SystemState) (caller : UserId) (p : NearbyParams)
    (lng lat : ℚ) (hlng : p.longitude = some lng) (hlat : p.latitude = some lat)
    (reports : List Report)
    (hres : nearbyReports dist state caller p = Except.ok reports)
    (facilities : List Facility) (fp : FacilityParams) (flng flat : ℚ)
    (hflng : fp.longitude = some flng) (hflat : fp.latitude = some flat) :
    ((∀ r ∈ reports, dist (lng, lat) r.location ≤ p.radius) ∧
      reports.Pairwise (fun a b =>
        dist (lng, lat) a.location ≤ dist (lng, lat) b.location)) ∧
    ((∀ f ∈ getFacilities dist facilities fp,
        dist (flng, flat) f.location ≤ fp.radius) ∧
      (getFacilities dist facilities fp).Pairwise (fun a b =>
        dist (flng, flat) a.location ≤ dist (flng, flat) b.location)) := by
  rcases p with ⟨plng, plat, prad, pinc⟩
  simp only at hlng hlat
  subst hlng
  subst hlat
  simp only [nearbyReports] at hres
  injection hres with hres
  subst hres
  rcases fp with ⟨fft, ffw, fflng, fflat, ffrad, fflim⟩
  simp only at hflng hflat
  subst hflng
  subst hflat
  constructor
  · exact mongoNear_take_props dist (lng, lat) prad
      (fun r : Report => r.location) _ 100
  · simp only [getFacilities]
    exact mongoNear_take_props dist (flng, flat) ffrad
      (fun f : Facility => f.location) _ fflim

/-- Witness for C7's amended statement at a concrete query. -/
theorem nearby_within_radius_sorted_witness :
    ((∀ r ∈ [freshReport], flatDist (80, 13) r.location ≤ nearParams.radius) ∧
      List.Pairwise (fun a b =>
        flatDist (80, 13) a.location ≤ flatDist (80, 13) b.location)
        [freshReport]) ∧
    ((∀ f ∈ getFacilities flatDist [recyclingCenter] facParams,
        flatDist (80, 13) f.location ≤ facParams.radius) ∧
      (getFacilities flatDist [recyclingCenter] facParams).Pairwise (fun a b =>
        flatDist (80, 13) a.location ≤ flatDist (80, 13) b.location)) :=
  nearby_within_radius_sorted flatDist baseState 1 nearParams 80 13 rfl rfl
    [freshReport] rfl [recyclingCenter] facParams 80 13 rfl rfl

def noPointNearParams : NearbyParams :=
  { longitude := none, latitude := none, radius := 10000,
    includeAssigned := "false" }

def noPointFacParams : FacilityParams :=
  { ftype := some "recycling_center", wasteType := none, longitude := none,
    latitude := none, radius := 10000, limit := 50 }

/-- C8 counterexample: a nearby-reports query carrying no point does not
fall back to a listing — the route rejects it with the 400 message. -/
theorem nearbyReports_noPoint_fails :
    nearbyReports flatDist baseState 1 noPointNearParams =
      Except.error "Longitude and latitude are required" := rfl

/-- C8 (amended): with no point supplied, the facilities query degrades
gracefully to the plain type-filtered listing, but the nearby-reports query
fails with a 400 validation error instead of falling back. -/
theorem noPoint_fallback (dist : Point → Point → ℚ) (state : SystemState)
    (caller : UserId) (p : NearbyParams) (facilities : List Facility)
    (fp : FacilityParams)
    (hp : p.longitude = none ∨ p.latitude = none)
    (hfp : fp.longitude = none ∨ fp.latitude = none) :
    nearbyReports dist state caller p =
      Except.error "Longitude and latitude are required" ∧
    getFacilities dist facilities fp =
      (facilities.filter (facilityQuery fp)).take fp.limit := by
  constructor
  · rcases p with ⟨plng, plat, prad, pinc⟩
    cases plng <;> cases plat <;> simp_all [nearbyReports]
  · rcases fp with ⟨ft, fw, flng, flat, frad, flim⟩
    cases flng <;> cases flat <;> simp_all [getFacilities, facilityQuery]

/-- Witness for C8's amended statement at concrete point-free queries. -/
theorem noPoint_fallback_witness :
    nearbyReports flatDist baseState 1 noPointNearParams =
      Except.error "Longitude and latitude are required" ∧
    getFacilities flatDist [recyclingCenter] noPointFacParams =
      (List.filter (facilityQuery noPointFacParams) [recyclingCenter]).take
        noPointFacParams.limit :=
  noPoint_fallback flatDist baseState 1 noPointNearParams [recyclingCenter]
    noPointFacParams (Or.inl rfl) (Or.inl rfl)

theorem tierOf_mono {a b : Int} (h : a ≤ b) :
    tierRank (tierOf a) ≤ tierRank (tierOf b) := by
  unfold tierOf
  split_ifs <;> simp [tierRank] <;> omega

theorem addRewardPoints_level (r : Rewards) (p : Int) (hp : 0 ≤ p)
    (hcons : r.level = tierOf r.totalEarned) :
    (addRewardPoints r p).level = tierOf (r.totalEarned + p) := by
  have hbronze : r.totalEarned + p < 1000 → r.level = Level.bronze := by
    intro hlt
    rw [hcons]
    unfold tierOf
    split_ifs <;> first | rfl | omega
  show (if r.totalEarned + p ≥ 10000 then Level.platinum
        else if r.totalEarned + p ≥ 5000 then Level.gold
        else if r.totalEarned + p ≥ 1000 then Level.silver
        else r.level) = tierOf (r.totalEarned + p)
  unfold tierOf
  split_ifs <;> first | rfl | exact hbronze (by omega)

/-- C9: crediting adds the points to both the spendable balance and the
lifetime total; across any sequence of non-negative credits starting from a
state whose level agrees with the cutoff function of its lifetime total,
the level always equals that cutoff function of the lifetime total and is
non-decreasing. -/
theorem credit_balance_total_tier (r : Rewards) (ps : List Int)
    (hcons : r.level = tierOf r.totalEarned)
    (hnn : ∀ p ∈ ps, 0 ≤ p) :
    (ps.foldl addRewardPoints r).points = r.points + ps.sum ∧
    (ps.foldl addRewardPoints r).totalEarned = r.totalEarned + ps.sum ∧
    (ps.foldl addRewardPoints r).level =
      tierOf (ps.foldl addRewardPoints r).totalEarned ∧
    tierRank r.level ≤ tierRank (ps.foldl addRewardPoints r).level := by
  induction ps generalizing r with
  | nil =>
      refine ⟨?_, ?_, hcons, le_refl _⟩ <;> simp
  | cons p ps ih =>
      have hp : 0 ≤ p := hnn p (List.mem_cons_self p ps)
      have hnn' : ∀ q ∈ ps, 0 ≤ q := fun q hq =>
        hnn q (List.mem_cons_of_mem p hq)
      have hstep : (addRewardPoints r p).level =
          tierOf (addRewardPoints r p).totalEarned := by
        have h := addRewardPoints_level r p hp hcons
        simpa [addRewardPoints] using h
      obtain ⟨h1, h2, h3, h4⟩ := ih (addRewardPoints r p) hstep hnn'
      refine ⟨?_, ?_, h3, ?_⟩
      · rw [List.foldl_cons, h1]
        simp [addRewardPoints]
        ring
      · rw [List.foldl_cons, h2]
        simp [addRewardPoints]
        ring
      · refine le_trans ?_ h4
        rw [hcons, hstep]
        have htot : (addRewardPoints r p).totalEarned = r.totalEarned + p := by
          simp [addRewardPoints]
        rw [htot]
        exact tierOf_mono (by omega)

/-- Witness for C9: four credits lift a fresh bronze account to platinum
through the cutoffs, with balance and lifetime total both summed. -/
theorem credit_balance_total_tier_witness :
    (([12, 988, 4000, 5000] : List Int).foldl addRewardPoints
        bronzeRewards).points = bronzeRewards.points +
        ([12, 988, 4000, 5000] : List Int).sum ∧
    (([12, 988, 4000, 5000] : List Int).foldl addRewardPoints
        bronzeRewards).totalEarned = bronzeRewards.totalEarned +
        ([12, 988, 4000, 5000] : List Int).sum ∧
    (([12, 988, 4000, 5000] : List Int).foldl addRewardPoints
        bronzeRewards).level =
      tierOf (([12, 988, 4000, 5000] : List Int).foldl addRewardPoints
        bronzeRewards).totalEarned ∧
    tierRank bronzeRewards.level ≤
      tierRank (([12, 988, 4000, 5000] : List Int).foldl addRewardPoints
        bronzeRewards).level :=
  credit_balance_total_tier bronzeRewards [12, 988, 4000, 5000] (by decide)
    (by decide)

/-- C10: a report-listing request by a citizen or green champion only ever
returns reports whose reporter is the requesting user, whatever viewType,
status, wasteType and severity parameters accompany it. -/
theorem getReports_citizen_scoped (state : SystemState) (user : User)
    (viewType status wasteType severity : Option String) (page limit : Nat)
    (hrole : user.role = Role.citizen ∨ user.role = Role.green_champion) :
    ∀ r ∈ getReports state user viewType status wasteType severity page limit,
      r.reporter = user.id := by
  intro r hr
  simp only [getReports] at hr
  have h2 := (List.drop_sublist _ _).subset ((List.take_sublist _ _).subset hr)
  have h3 := (mem_sortBy _ _ r).mp h2
  have h4 := List.mem_filter.mp h3
  have hrf : reportsRoleFilter user viewType r = true := by
    have h5 := h4.2
    simp only [Bool.and_eq_true] at h5
    tauto
  have hworker : ¬ user.role = Role.waste_worker := by
    rcases hrole with h | h <;> simp [h]
  rcases hrole with h | h <;>
    simpa [reportsRoleFilter, hworker, h] using hrf

/-- Witness for C10: the citizen Ravi lists reports and the returned report
is their own. -/
theorem getReports_citizen_scoped_witness :
    freshReport.reporter = reporterUser.id :=
  getReports_citizen_scoped baseState reporterUser none none none none 1 50
    (Or.inl rfl) freshReport (by decide)

end SmartWaste
